import Mathlib

/-!
Shallow embedding of the RiskLens volatility / sector-analysis core
(`src/volatility.py`, `src/sector_analysis.py`) over the reals.

Conventions of the embedding:
* A pandas Series / DataFrame column is a `List (Option ℝ)`; `none` plays the
  role of NaN (an undefined cell).
* `np.sqrt` of a negative number yields NaN, embedded by `sqrtNaN`.
* Rolling aggregations follow pandas semantics with the default
  `min_periods = window`: a position has a value exactly when its trailing
  window holds `window` observations, none of them NaN.
* DataFrames with labelled rows and columns are `VolMatrix`
  (row = date label × cells, one cell per column label).
-/

open scoped Classical

noncomputable section

namespace RiskLens

/-- NaN-aware square root: `np.sqrt` returns NaN on negative input. -/
def sqrtNaN (x : ℝ) : Option ℝ :=
  if x < 0 then none else some (Real.sqrt x)

/-- Arithmetic mean of a list (pandas `mean` on the non-null values). -/
def listMean (xs : List ℝ) : ℝ := xs.sum / xs.length

/-- Trailing window of width at most `w` ending at position `i` (pandas
`rolling(window=w)` window at row `i`). -/
def windowSlice (w i : ℕ) (xs : List α) : List α :=
  (xs.take (i + 1)).drop (i + 1 - w)

/-- `series.rolling(window=w).agg(f)` on an all-defined series: position `i`
has a value exactly when `w` observations are available. -/
def rollingApply (w : ℕ) (f : List ℝ → ℝ) (xs : List ℝ) : List (Option ℝ) :=
  (List.range xs.length).map (fun i =>
    if w ≤ i + 1 then some (f (windowSlice w i xs)) else none)

/-- `series.rolling(window=w).agg(f)` on a series with NaNs
(default `min_periods = w`): position `i` has a value exactly when the
trailing window holds `w` observations and none is NaN. -/
def rollingApplyO (w : ℕ) (f : List ℝ → ℝ) (xs : List (Option ℝ)) : List (Option ℝ) :=
  (List.range xs.length).map (fun i =>
    let win := windowSlice w i xs
    if w ≤ i + 1 ∧ win.all Option.isSome then some (f (win.filterMap id)) else none)

/-- Sample standard deviation, `ddof = 1` (pandas `Series.std`). -/
def sampleStd (xs : List ℝ) : ℝ :=
  Real.sqrt ((xs.map (fun x => (x - listMean xs) ^ 2)).sum / ((xs.length : ℝ) - 1))

/-- Simple percent return at position `t` of a price list. -/
def returnAt (prices : List ℝ) (t : ℕ) : ℝ :=
  (prices.getD t 0 - prices.getD (t - 1) 0) / prices.getD (t - 1) 0

/-- `compute_daily_returns` (volatility.py line 4): `pct_change` of the
adjusted close (the `use_log = False` default used by
`historical_volatility`), or the log difference when `use_log`.
Position 0 is NaN. -/
def compute_daily_returns (useLog : Bool) (prices : List ℝ) : List (Option ℝ) :=
  (List.range prices.length).map (fun t =>
    if t = 0 then none
    else if useLog then some (Real.log (prices.getD t 0 / prices.getD (t - 1) 0))
    else some (returnAt prices t))

/-- Multiply every defined entry by `√252` when `annualize` holds
(the `if annualize: vol *= np.sqrt(252)` tail shared by the estimators). -/
def annualizeSeries (annualize : Bool) (xs : List (Option ℝ)) : List (Option ℝ) :=
  if annualize then xs.map (Option.map (fun v => v * Real.sqrt 252)) else xs

/-- `historical_volatility` (volatility.py line 23): rolling `ddof = 1`
standard deviation of the simple daily returns, optionally annualized. -/
def historical_volatility (prices : List ℝ) (window : ℕ) (annualize : Bool) :
    List (Option ℝ) :=
  annualizeSeries annualize
    (rollingApplyO window sampleStd (compute_daily_returns false prices))

/-- A bar carrying the High and Low columns used by the Parkinson estimator. -/
structure BarHL where
  high : ℝ
  low : ℝ

/-- `parkinson_volatility` (volatility.py line 37) as the code computes it:
`np.sqrt(1/(4 ln 2) * ln(High/Low).rolling(window).mean())`.  Note the code
takes the rolling mean of `ln(High/Low)` itself, NOT of its square. -/
def parkinson_volatility (bars : List BarHL) (window : ℕ) (annualize : Bool) :
    List (Option ℝ) :=
  annualizeSeries annualize
    ((rollingApply window listMean
        (bars.map (fun b => Real.log (b.high / b.low)))).map
      (fun o => o.bind (fun m => sqrtNaN (1 / (4 * Real.log 2) * m))))

/-- Modelled from the spec: the Parkinson estimator as the function's own
docstring and the specification state it — the rolling mean is taken of the
SQUARE of `ln(High/Low)`.  Used to exhibit the divergence of the code from
its documentation. -/
def parkinson_volatility_spec (bars : List BarHL) (window : ℕ) (annualize : Bool) :
    List (Option ℝ) :=
  annualizeSeries annualize
    ((rollingApply window listMean
        (bars.map (fun b => (Real.log (b.high / b.low)) ^ 2))).map
      (fun o => o.bind (fun m => sqrtNaN (1 / (4 * Real.log 2) * m))))

/-- A bar carrying the Open/High/Low/Close columns of the Garman-Klass
estimator. -/
structure BarOHLC where
  openP : ℝ
  high : ℝ
  low : ℝ
  close : ℝ

/-- Radicand of the Garman-Klass estimator at one bar. -/
def gkRadicand (b : BarOHLC) : ℝ :=
  0.5 * (Real.log (b.high / b.low)) ^ 2 -
    (2 * Real.log 2 - 1) * (Real.log (b.close / b.openP)) ^ 2

/-- `garman_klass_volatility` (volatility.py line 52): a per-bar (pointwise)
estimator; the `window` argument is accepted but never used. -/
def garman_klass_volatility (bars : List BarOHLC) (window : ℕ) (annualize : Bool) :
    List (Option ℝ) :=
  annualizeSeries annualize (bars.map (fun b => sqrtNaN (gkRadicand b)))

/-- A date-indexed numeric matrix: labelled columns, and one row per date
(date label paired with the row's cells, one per column). -/
structure VolMatrix where
  cols : List String
  rows : List (String × List (Option ℝ))

/-- A matrix is `empty` in the pandas sense when it has no rows or no
columns. -/
def VolMatrix.isEmptyDF (m : VolMatrix) : Bool :=
  m.rows.isEmpty || m.cols.isEmpty

/-- Median of a list of reals (pandas `median`): middle of the ascending
ordering, or the average of the two middles. -/
def listMedian (xs : List ℝ) : ℝ :=
  let s := xs.insertionSort (fun a b => a ≤ b)
  if xs.length % 2 = 1 then s.getD (xs.length / 2) 0
  else (s.getD (xs.length / 2 - 1) 0 + s.getD (xs.length / 2) 0) / 2

/-- The defined values, among the cells of one date row, of the tickers that
the sector map sends to sector `s` (the group that pandas
`groupby('Sector')` aggregates for `s` on that date). -/
def sectorValues (sectorMap : List (String × String)) (cols : List String)
    (vals : List (Option ℝ)) (s : String) : List ℝ :=
  ((cols.zip vals).filter (fun p => sectorMap.lookup p.1 = some s)).filterMap
    (fun p => p.2)

/-- The sector labels present among the mapped tickers of the matrix
(the groups formed by `groupby('Sector')`). -/
def sectorList (sectorMap : List (String × String)) (cols : List String) :
    List String :=
  (cols.filterMap (fun t => sectorMap.lookup t)).dedup

/-- One aggregated cell: pandas group-aggregation of the values of a sector
on one date.  An empty group (no defined value) aggregates to NaN.
`"weighted"` is aggregated exactly like `"mean"` (equal weighting), as in the
source. -/
def aggCell (method : String) (xs : List ℝ) : Option ℝ :=
  if xs.isEmpty then none
  else if method = "median" then some (listMedian xs) else some (listMean xs)

/-- `compute_sector_volatility` (sector_analysis.py line 19): aggregate
stock-level volatility into sector-level volatility; an unsupported method
raises `ValueError` (embedded as `Except.error`), but an empty input returns
an empty frame before the method is examined. -/
def compute_sector_volatility (m : VolMatrix) (sectorMap : List (String × String))
    (method : String) : Except String VolMatrix :=
  if m.isEmptyDF then .ok ⟨[], []⟩
  else if method = "mean" ∨ method = "median" ∨ method = "weighted" then
    .ok ⟨sectorList sectorMap m.cols,
      m.rows.map (fun r =>
        (r.1, (sectorList sectorMap m.cols).map
          (fun s => aggCell method (sectorValues sectorMap m.cols r.2 s))))⟩
  else .error ("Method not supported: " ++ method)

/-- The sector-level matrix used inside `compute_sector_risk_contribution`
(the `method="mean"` call never raises). -/
def sectorVolMean (m : VolMatrix) (sectorMap : List (String × String)) : VolMatrix :=
  match compute_sector_volatility m sectorMap "mean" with
  | .ok sv => sv
  | .error _ => ⟨[], []⟩

/-- The distinct sectors of the sector map, used for the equal-weight
default (`set(sector_map.values())`). -/
def distinctSectors (sectorMap : List (String × String)) : List String :=
  (sectorMap.map Prod.snd).dedup

/-- Portfolio weights before normalization: the supplied vector, or the
equal-weight default over the distinct sectors of the map. -/
def initWeights (sectorMap : List (String × String))
    (weights : Option (List (String × ℝ))) : List (String × ℝ) :=
  match weights with
  | some w => w
  | none => (distinctSectors sectorMap).map
      (fun s => (s, 1 / ((distinctSectors sectorMap).length : ℝ)))

/-- `weights / weights.sum()` (sector_analysis.py line 91). -/
def normalizeWeights (w : List (String × ℝ)) : List (String × ℝ) :=
  w.map (fun p => (p.1, p.2 / (w.map Prod.snd).sum))

/-- The normalized weight vector `compute_sector_risk_contribution` works
with. -/
def riskWeights (sectorMap : List (String × String))
    (weights : Option (List (String × ℝ))) : List (String × ℝ) :=
  normalizeWeights (initWeights sectorMap weights)

/-- The (sector, value) pairs of the defined cells of one date row: the
cross-section the code obtains by `.dropna()` on a row. -/
def definedPairs (cols : List String) (vals : List (Option ℝ)) :
    List (String × ℝ) :=
  (cols.zip vals).filterMap (fun p => p.2.map (fun v => (p.1, v)))

/-- Weight looked up in a weight vector, 0 when absent
(`weights.reindex(available).fillna(0)`). -/
def weightOf (w : List (String × ℝ)) (s : String) : ℝ :=
  (w.lookup s).getD 0

/-- The per-date weights: restricted to the sectors with a defined value on
the date and renormalized when their sum is positive (sector_analysis.py
lines 99-101). -/
def dateWeight (w0 : List (String × ℝ)) (cols : List String)
    (vals : List (Option ℝ)) (s : String) : ℝ :=
  let wsum := ((definedPairs cols vals).map (fun p => weightOf w0 p.1)).sum
  if 0 < wsum then weightOf w0 s / wsum else weightOf w0 s

/-- The date's total weighted sector volatility
(`total_weighted_vol = weighted_vols.sum()`, NaNs skipped). -/
def rowTotal (w0 : List (String × ℝ)) (cols : List String)
    (vals : List (Option ℝ)) : ℝ :=
  ((definedPairs cols vals).map (fun p => p.2 * dateWeight w0 cols vals p.1)).sum

/-- One output row of `compute_sector_risk_contribution`: each defined cell
becomes its percentage share of the date's total weighted volatility, or 0
when that total is not positive; NaN cells stay NaN. -/
def riskContribRow (w0 : List (String × ℝ)) (cols : List String)
    (vals : List (Option ℝ)) : List (Option ℝ) :=
  (cols.zip vals).map (fun p =>
    p.2.map (fun v =>
      if 0 < rowTotal w0 cols vals
      then v * dateWeight w0 cols vals p.1 / rowTotal w0 cols vals * 100
      else 0))

/-- `compute_sector_risk_contribution` (sector_analysis.py line 64). -/
def compute_sector_risk_contribution (m : VolMatrix)
    (sectorMap : List (String × String)) (weights : Option (List (String × ℝ))) :
    VolMatrix :=
  if m.isEmptyDF then ⟨[], []⟩
  else
    let sv := sectorVolMean m sectorMap
    let w0 := riskWeights sectorMap weights
    ⟨sv.cols, sv.rows.map (fun r => (r.1, riskContribRow w0 sv.cols r.2))⟩

/-- Result of `rank_sectors_by_volatility`: a Series (the date cross-section
branch and the empty fallbacks) or a ranking table with explicit rank
numbers (the all-time branch). -/
inductive RankResult
  | series (xs : List (String × ℝ))
  | table (xs : List (String × ℝ × ℕ))

/-- Descending order on (sector, volatility) pairs, compared by value. -/
def descRel (a b : String × ℝ) : Prop := b.2 ≤ a.2

instance : DecidableRel descRel := fun a b => Real.decidableLE b.2 a.2

instance : IsTotal (String × ℝ) descRel := ⟨fun a b => le_total b.2 a.2⟩

instance : IsTrans (String × ℝ) descRel := ⟨fun _ _ _ h1 h2 => le_trans h2 h1⟩

/-- `sort_values(ascending=False)` on (label, value) pairs. -/
def sortDesc (xs : List (String × ℝ)) : List (String × ℝ) :=
  xs.insertionSort descRel

/-- `head(top_n)` when `top_n` is given. -/
def truncOpt (topN : Option ℕ) (xs : List α) : List α :=
  match topN with
  | some k => xs.take k
  | none => xs

/-- The defined values of column `j` across all dates. -/
def colValues (m : VolMatrix) (j : ℕ) : List ℝ :=
  m.rows.filterMap (fun r => r.2.getD j none)

/-- Per-sector time-mean volatilities: `sector_vol_df.mean().dropna()` —
column means over the defined cells, columns with no defined cell dropped. -/
def colMeans (m : VolMatrix) : List (String × ℝ) :=
  (List.range m.cols.length).filterMap (fun j =>
    if (colValues m j).isEmpty then none
    else some (m.cols.getD j "", listMean (colValues m j)))

/-- Attach explicit 1-based rank numbers to a ranked list. -/
def addRanks (xs : List (String × ℝ)) : List (String × ℝ × ℕ) :=
  xs.enum.map (fun p => (p.2.1, p.2.2, p.1 + 1))

/-- `rank_sectors_by_volatility` (sector_analysis.py line 148). -/
def rank_sectors_by_volatility (m : VolMatrix) (date : Option String)
    (topN : Option ℕ) : RankResult :=
  if m.isEmptyDF then .series []
  else
    match date with
    | some d =>
      match m.rows.lookup d with
      | some vals => .series (truncOpt topN (sortDesc (definedPairs m.cols vals)))
      | none => .series []
    | none => .table (addRanks (truncOpt topN (sortDesc (colMeans m))))

/-- Volatility regime label. -/
inductive Regime
  | low
  | medium
  | high
deriving DecidableEq

/-- One cell of the regime classification, `pd.cut` with bins
`(-inf, low], (low, high], (high, inf)`; NaN stays NaN. -/
def classifyCell (lowT highT : ℝ) : Option ℝ → Option Regime
  | none => none
  | some x => some (if x ≤ lowT then .low else if x ≤ highT then .medium else .high)

/-- A matrix of regime labels, same shape as the input matrix. -/
structure RegimeMatrix where
  cols : List String
  rows : List (String × List (Option Regime))

/-- `detect_sector_volatility_regimes` (sector_analysis.py line 286). -/
def detect_sector_volatility_regimes (m : VolMatrix) (lowT highT : ℝ) :
    RegimeMatrix :=
  if m.isEmptyDF then ⟨[], []⟩
  else ⟨m.cols, m.rows.map (fun r => (r.1, r.2.map (classifyCell lowT highT)))⟩

/-- The result dictionary of `cluster_sectors_by_volatility`: the sector
list (when set), the `"error"` entry (when set) and the cluster labels
(when clustering ran). -/
structure ClusterResult where
  sectors : List String
  error : Option String
  labels : Option (List (String × ℕ))

/-- `sector_vol_df.T.dropna()`: one observation vector per sector, sectors
with any undefined value dropped entirely. -/
def definedSectorSeries (m : VolMatrix) : List (String × List ℝ) :=
  (List.range m.cols.length).filterMap (fun j =>
    let colv := m.rows.map (fun r => r.2.getD j none)
    if colv.all Option.isSome then some (m.cols.getD j "", colv.filterMap id)
    else none)

/-- `cluster_sectors_by_volatility` (sector_analysis.py line 218).  The
clustering routines themselves live in scipy / scikit-learn, outside this
repository: they are abstracted as total label functions `hierCluster` and
`kmeansCluster`, and library availability as the two booleans set by the
`try import` prologue.  Every failure is a returned value, never an
exception. -/
def cluster_sectors_by_volatility (m : VolMatrix) (method : String)
    (nClusters : ℕ) (scipyAvailable sklearnAvailable : Bool)
    (hierCluster kmeansCluster : List (List ℝ) → ℕ → List ℕ) : ClusterResult :=
  if m.isEmptyDF then ⟨[], none, none⟩
  else if method = "hierarchical" ∧ ¬scipyAvailable then
    ⟨[], some "scipy is required for hierarchical clustering", none⟩
  else if method = "kmeans" ∧ ¬sklearnAvailable then
    ⟨[], some "scikit-learn is required for k-means clustering", none⟩
  else
    let data := definedSectorSeries m
    if data.isEmpty ∨ data.length < 2 then
      ⟨[], some "Insufficient data for clustering", none⟩
    else
      let names := data.map Prod.fst
      if method = "hierarchical" then
        ⟨names, none, some (names.zip (hierCluster (data.map Prod.snd) nClusters))⟩
      else if method = "kmeans" then
        if nClusters ≤ data.length then
          ⟨names, none, some (names.zip (kmeansCluster (data.map Prod.snd) nClusters))⟩
        else ⟨names, some "Number of sectors is less than n_clusters", none⟩
      else ⟨names, some ("Method not supported: " ++ method), none⟩

/-- Example fixture: the spec's two-ticker, one-sector matrix with values
0.10 and 0.20 on one date. -/
def exM6 : VolMatrix := ⟨["AAA", "BBB"], [("d1", [some 0.10, some 0.20])]⟩

/-- Example fixture: the sector map sending both example tickers to Tech. -/
def exMap6 : List (String × String) := [("AAA", "Tech"), ("BBB", "Tech")]

/-- Example fixture: a fully-defined two-sector, two-date matrix. -/
def exM3 : VolMatrix := ⟨["A", "B"], [("d1", [some 1, some 2]), ("d2", [some 3, some 4])]⟩

/-- Example fixture: an arbitrary hierarchical label function. -/
def exHier : List (List ℝ) → ℕ → List ℕ := fun _ _ => [1, 1]

/-- Example fixture: an arbitrary k-means label function. -/
def exKme : List (List ℝ) → ℕ → List ℕ := fun _ _ => []

/-- Example fixture: the spec's ranking example — Tech 0.30, Energy 0.10,
Health 0.20 on one date. -/
def exM7 : VolMatrix :=
  ⟨["Tech", "Energy", "Health"], [("d1", [some 0.30, some 0.10, some 0.20])]⟩

/-- Example fixture: the single date row of `exM7`. -/
def exVals7 : List (Option ℝ) := [some 0.30, some 0.10, some 0.20]

end RiskLens

open RiskLens

/-! ### Helper lemmas -/

theorem lookup_eq_none_of_keys {β : Type} (l : List (String × β)) (d : String)
    (h : ∀ r ∈ l, r.1 ≠ d) : l.lookup d = none := by
  induction l with
  | nil => rfl
  | cons p t ih =>
    have hpd : (d == p.1) = false :=
      beq_eq_false_iff_ne.mpr (Ne.symm (h p (List.mem_cons_self p t)))
    cases p with
    | mk k b =>
      simp only [List.lookup, hpd]
      exact ih (fun r hr => h r (List.mem_cons_of_mem _ hr))

/-! ### C8 — annualization scaling law -/

/-- C8: for each of the three estimators, the `annualize = true` output is the
`annualize = false` output with every defined entry multiplied by `√252`
(and the same entries defined). -/
theorem annualization_scaling (prices : List ℝ) (bars : List BarHL)
    (obars : List BarOHLC) (w : ℕ) :
    historical_volatility prices w true
      = (historical_volatility prices w false).map
          (Option.map (fun v => v * Real.sqrt 252))
    ∧ parkinson_volatility bars w true
      = (parkinson_volatility bars w false).map
          (Option.map (fun v => v * Real.sqrt 252))
    ∧ garman_klass_volatility obars w true
      = (garman_klass_volatility obars w false).map
          (Option.map (fun v => v * Real.sqrt 252)) := by
  refine ⟨?_, ?_, ?_⟩ <;>
    simp [historical_volatility, parkinson_volatility, garman_klass_volatility,
      annualizeSeries]

/-! ### C2 — Garman-Klass is pointwise -/

/-- C2: `garman_klass_volatility` is a per-bar value independent of the
`window` argument; a bar whose radicand is negative yields an undefined
(NaN) entry rather than an exception, a nonnegative radicand yields its
square root, and a bar with High = Low = Close = Open (e.g. all 100) yields
exactly 0. -/
theorem garman_klass_pointwise (bars : List BarOHLC) (w w' : ℕ) (a : Bool)
    (i : ℕ) (hi : i < bars.length) :
    garman_klass_volatility bars w a = garman_klass_volatility bars w' a
    ∧ (garman_klass_volatility bars w false)[i]? = some (sqrtNaN (gkRadicand bars[i]))
    ∧ (gkRadicand bars[i] < 0 →
        (garman_klass_volatility bars w false)[i]? = some none)
    ∧ (0 ≤ gkRadicand bars[i] →
        (garman_klass_volatility bars w false)[i]?
          = some (some (Real.sqrt (gkRadicand bars[i]))))
    ∧ (bars[i] = ⟨100, 100, 100, 100⟩ →
        (garman_klass_volatility bars w false)[i]? = some (some 0)) := by
  have hbase : garman_klass_volatility bars w false
      = bars.map (fun b => sqrtNaN (gkRadicand b)) := rfl
  have hget : (garman_klass_volatility bars w false)[i]?
      = some (sqrtNaN (gkRadicand bars[i])) := by
    rw [hbase, List.getElem?_map, List.getElem?_eq_getElem hi]
    rfl
  refine ⟨rfl, hget, ?_, ?_, ?_⟩
  · intro hneg
    rw [hget]
    simp [sqrtNaN, hneg]
  · intro hpos
    rw [hget]
    simp [sqrtNaN, not_lt.mpr hpos]
  · intro hb
    have hrad : gkRadicand bars[i] = 0 := by
      rw [hb]
      unfold gkRadicand
      norm_num
    rw [hget, hrad]
    simp [sqrtNaN, Real.sqrt_zero]

/-- C2 witness: a one-bar table with High = Low = Open = 100, Close = 200
(radicand `-(2 ln 2 - 1)(ln 2)² < 0`). -/
theorem garman_klass_pointwise_witness :
    garman_klass_volatility [⟨100, 100, 100, 200⟩] 30 false
        = garman_klass_volatility [⟨100, 100, 100, 200⟩] 7 false
    ∧ (garman_klass_volatility [⟨100, 100, 100, 200⟩] 30 false)[0]?
        = some (sqrtNaN (gkRadicand ([⟨100, 100, 100, 200⟩] : List BarOHLC)[0]))
    ∧ (gkRadicand ([⟨100, 100, 100, 200⟩] : List BarOHLC)[0] < 0 →
        (garman_klass_volatility [⟨100, 100, 100, 200⟩] 30 false)[0]? = some none)
    ∧ ((0 : ℝ) ≤ gkRadicand ([⟨100, 100, 100, 200⟩] : List BarOHLC)[0] →
        (garman_klass_volatility [⟨100, 100, 100, 200⟩] 30 false)[0]?
          = some (some (Real.sqrt (gkRadicand ([⟨100, 100, 100, 200⟩] : List BarOHLC)[0]))))
    ∧ (([⟨100, 100, 100, 200⟩] : List BarOHLC)[0] = ⟨100, 100, 100, 100⟩ →
        (garman_klass_volatility [⟨100, 100, 100, 200⟩] 30 false)[0]? = some (some 0)) :=
  garman_klass_pointwise [⟨100, 100, 100, 200⟩] 30 7 false 0 (by norm_num)

/-- The C2 radicand witness really is negative at the witness bar. -/
theorem garman_klass_negative_radicand_example :
    gkRadicand ⟨100, 100, 100, 200⟩ < 0 := by
  unfold gkRadicand
  have h100 : ((100 : ℝ) / 100) = 1 := by norm_num
  have h200 : ((200 : ℝ) / 100) = 2 := by norm_num
  rw [h100, h200, Real.log_one]
  have hlog2 : (0.6931471803 : ℝ) < Real.log 2 := Real.log_two_gt_d9
  have hpos : 0 < (2 * Real.log 2 - 1) * Real.log 2 ^ 2 := by
    apply mul_pos
    · nlinarith
    · positivity
  nlinarith

/-! ### C1 — Parkinson: the code omits the square of ln(High/Low) -/

/-- C1: the code (volatility.py line 47) takes the rolling mean of
`ln(High/Low)` itself while its own docstring (line 44) and the spec demand
the rolling mean of the SQUARE of `ln(High/Low)`.  On the two-bar table with
High = e², Low = 1 and window 2, the code yields `√(1/(4 ln 2) · 2)` where
the documented formula yields `√(1/(4 ln 2) · 4)`, and the two differ. -/
theorem parkinson_code_omits_square :
    (parkinson_volatility [⟨Real.exp 2, 1⟩, ⟨Real.exp 2, 1⟩] 2 false)[1]?
        = some (some (Real.sqrt (1 / (4 * Real.log 2) * 2)))
    ∧ (parkinson_volatility_spec [⟨Real.exp 2, 1⟩, ⟨Real.exp 2, 1⟩] 2 false)[1]?
        = some (some (Real.sqrt (1 / (4 * Real.log 2) * 4)))
    ∧ (parkinson_volatility [⟨Real.exp 2, 1⟩, ⟨Real.exp 2, 1⟩] 2 false)[1]?
        ≠ (parkinson_volatility_spec [⟨Real.exp 2, 1⟩, ⟨Real.exp 2, 1⟩] 2 false)[1]? := by
  have hlog : Real.log (Real.exp 2 / 1) = 2 := by
    rw [div_one, Real.log_exp]
  have hl2 : (0 : ℝ) < Real.log 2 := Real.log_pos (by norm_num)
  have hc : 0 < 1 / (4 * Real.log 2) := by positivity
  have hmean2 : listMean [2, 2] = 2 := by
    simp [listMean]
  have hmean4 : listMean [4, 4] = 4 := by
    simp [listMean]
  have hroll2 : rollingApply 2 listMean [2, 2] = [none, some 2] := by
    simp [rollingApply, List.range_succ, windowSlice, hmean2]
  have hroll4 : rollingApply 2 listMean [4, 4] = [none, some 4] := by
    simp [rollingApply, List.range_succ, windowSlice, hmean4]
  have hcode : (parkinson_volatility [⟨Real.exp 2, 1⟩, ⟨Real.exp 2, 1⟩] 2 false)[1]?
      = some (some (Real.sqrt (1 / (4 * Real.log 2) * 2))) := by
    have hunfold : parkinson_volatility [⟨Real.exp 2, 1⟩, ⟨Real.exp 2, 1⟩] 2 false
        = (rollingApply 2 listMean [2, 2]).map
            (fun o => o.bind (fun m => sqrtNaN (1 / (4 * Real.log 2) * m))) := by
      simp only [parkinson_volatility, annualizeSeries, Bool.false_eq_true, if_false,
        List.map_cons, List.map_nil, hlog]
    rw [hunfold, hroll2]
    have hnn : ¬ (1 / (4 * Real.log 2) * 2 < 0) := not_lt.mpr (mul_nonneg hc.le (by norm_num))
    simp [sqrtNaN, hnn, hl2.le]
  have hspec : (parkinson_volatility_spec [⟨Real.exp 2, 1⟩, ⟨Real.exp 2, 1⟩] 2 false)[1]?
      = some (some (Real.sqrt (1 / (4 * Real.log 2) * 4))) := by
    have hunfold : parkinson_volatility_spec [⟨Real.exp 2, 1⟩, ⟨Real.exp 2, 1⟩] 2 false
        = (rollingApply 2 listMean [4, 4]).map
            (fun o => o.bind (fun m => sqrtNaN (1 / (4 * Real.log 2) * m))) := by
      simp only [parkinson_volatility_spec, annualizeSeries, Bool.false_eq_true, if_false,
        List.map_cons, List.map_nil, hlog]
      norm_num
    rw [hunfold, hroll4]
    have hnn : ¬ (1 / (4 * Real.log 2) * 4 < 0) := not_lt.mpr (mul_nonneg hc.le (by norm_num))
    simp [sqrtNaN, hnn, hl2.le]
  refine ⟨hcode, hspec, ?_⟩
  rw [hcode, hspec]
  intro h
  have h2 : Real.sqrt (1 / (4 * Real.log 2) * 2) = Real.sqrt (1 / (4 * Real.log 2) * 4) := by
    simpa using h
  have hlt : Real.sqrt (1 / (4 * Real.log 2) * 2) < Real.sqrt (1 / (4 * Real.log 2) * 4) :=
    Real.sqrt_lt_sqrt (by positivity) (by nlinarith)
  exact absurd h2 (ne_of_lt hlt)

/-! ### C9 — ranking with a missing date returns an empty series -/

/-- C9: on a non-empty sector matrix, `rank_sectors_by_volatility` with a
date label that is not a row label returns an empty series (a branchable
value, not an exception and not a partial ranking). -/
theorem rank_missing_date_empty (m : VolMatrix) (d : String) (topN : Option ℕ)
    (hne : m.isEmptyDF = false) (hd : ∀ r ∈ m.rows, r.1 ≠ d) :
    rank_sectors_by_volatility m (some d) topN = .series [] := by
  unfold rank_sectors_by_volatility
  rw [hne]
  simp [lookup_eq_none_of_keys m.rows d hd]

/-- C9 witness: a 1×1 matrix queried at an absent date label. -/
theorem rank_missing_date_empty_witness :
    rank_sectors_by_volatility ⟨["Tech"], [("2024-01-02", [some 0.2])]⟩
        (some "2024-01-03") (some 5) = .series [] :=
  rank_missing_date_empty ⟨["Tech"], [("2024-01-02", [some 0.2])]⟩ "2024-01-03"
    (some 5) (by rfl) (by simp)

/-! ### C5 — regime classification -/

/-- C5: `detect_sector_volatility_regimes` classifies every cell
independently and in place: value ≤ low ↦ Low, low < value ≤ high ↦ Medium,
value > high ↦ High (so exactly `low` gives Low and exactly `high` gives
Medium); NaN cells stay NaN, the column labels, row labels and cell
positions are unchanged. -/
theorem regime_classification (m : VolMatrix) (lowT highT : ℝ) (v : ℝ) (i : ℕ)
    (h : lowT < highT) (hne : m.isEmptyDF = false) :
    (detect_sector_volatility_regimes m lowT highT).cols = m.cols
    ∧ (detect_sector_volatility_regimes m lowT highT).rows[i]?
        = m.rows[i]?.map (fun r => (r.1, r.2.map (classifyCell lowT highT)))
    ∧ classifyCell lowT highT none = none
    ∧ (v ≤ lowT → classifyCell lowT highT (some v) = some .low)
    ∧ (lowT < v → v ≤ highT → classifyCell lowT highT (some v) = some .medium)
    ∧ (highT < v → classifyCell lowT highT (some v) = some .high)
    ∧ classifyCell lowT highT (some lowT) = some .low
    ∧ classifyCell lowT highT (some highT) = some .medium := by
  have hdet : detect_sector_volatility_regimes m lowT highT
      = ⟨m.cols, m.rows.map (fun r => (r.1, r.2.map (classifyCell lowT highT)))⟩ := by
    unfold detect_sector_volatility_regimes
    rw [hne]
    simp
  refine ⟨by rw [hdet], by rw [hdet]; exact List.getElem?_map _ _ _, rfl, ?_, ?_, ?_, ?_, ?_⟩
  · intro hv
    simp [classifyCell, hv]
  · intro hv1 hv2
    simp [classifyCell, not_le.mpr hv1, hv2]
  · intro hv
    simp [classifyCell, not_le.mpr (h.trans hv), not_le.mpr hv]
  · simp [classifyCell]
  · simp [classifyCell, not_le.mpr h]

/-! ### C4 — historical volatility window -/

theorem windowSlice_range_map {β : Type} (g : ℕ → β) (n w t : ℕ) (ht : t < n)
    (hw : w ≤ t + 1) :
    windowSlice w t ((List.range n).map g) = (List.range' (t + 1 - w) w).map g := by
  unfold windowSlice
  rw [← List.map_take, ← List.map_drop, List.take_range]
  have hmin : min (t + 1) n = t + 1 := by omega
  rw [hmin]
  congr 1
  obtain ⟨a, ha⟩ : ∃ a, t + 1 - w = a := ⟨_, rfl⟩
  rw [ha]
  have hsplit : List.range (t + 1) = List.range' 0 a ++ List.range' a w := by
    rw [List.range_eq_range', show t + 1 = w + a by omega]
    have h := List.range'_append 0 a w 1
    simp only [one_mul, Nat.zero_add] at h
    exact h.symm
  rw [hsplit]
  exact List.drop_left' (List.length_range' _ _ _)

theorem filterMap_id_map_some {β : Type} (l : List ℕ) (g : ℕ → Option β) (f : ℕ → β)
    (h : ∀ k ∈ l, g k = some (f k)) : (l.map g).filterMap id = l.map f := by
  induction l with
  | nil => rfl
  | cons a tl ih =>
    have h' := h a (List.mem_cons_self a tl)
    simp [List.filterMap_cons, h', ih (fun k hk => h k (List.mem_cons_of_mem _ hk))]

theorem rollingApplyO_getElem (w : ℕ) (f : List ℝ → ℝ) (xs : List (Option ℝ))
    (t : ℕ) (ht : t < xs.length) :
    (rollingApplyO w f xs)[t]?
      = some (if w ≤ t + 1 ∧ (windowSlice w t xs).all Option.isSome
          then some (f ((windowSlice w t xs).filterMap id)) else none) := by
  unfold rollingApplyO
  rw [List.getElem?_map, List.getElem?_range ht]
  rfl

/-- C4: with all prices present and positive and window w ≥ 2,
`historical_volatility` has the length of the price series, is undefined at
positions 0 … w−1 (the NaN leading return plus the first w−1 rolling
positions of the return series), and from position w on equals the ddof=1
sample standard deviation of the last w simple percent returns — a
nonnegative real — times √252 when annualizing. -/
theorem historical_vol_window (prices : List ℝ) (w t : ℕ)
    (hw : 2 ≤ w) (hpos : ∀ p ∈ prices, 0 < p) (ht : t < prices.length) :
    (historical_volatility prices w true).length = prices.length
    ∧ (historical_volatility prices w false).length = prices.length
    ∧ (t < w → (historical_volatility prices w false)[t]? = some none)
    ∧ (w ≤ t →
        (historical_volatility prices w false)[t]?
          = some (some (sampleStd
              ((List.range w).map (fun j => returnAt prices (t + 1 - w + j)))))
        ∧ 0 ≤ sampleStd ((List.range w).map (fun j => returnAt prices (t + 1 - w + j)))
        ∧ (historical_volatility prices w true)[t]?
          = some (some (sampleStd
              ((List.range w).map (fun j => returnAt prices (t + 1 - w + j)))
              * Real.sqrt 252))) := by
  set g : ℕ → Option ℝ := fun u => if u = 0 then none else some (returnAt prices u) with hg
  have hret : compute_daily_returns false prices = (List.range prices.length).map g := by
    unfold compute_daily_returns
    simp [hg]
  have hfalse : historical_volatility prices w false
      = rollingApplyO w sampleStd (compute_daily_returns false prices) := by
    simp [historical_volatility, annualizeSeries]
  have htrue : historical_volatility prices w true
      = (rollingApplyO w sampleStd (compute_daily_returns false prices)).map
          (Option.map (fun v => v * Real.sqrt 252)) := by
    simp [historical_volatility, annualizeSeries]
  have hRlen : (compute_daily_returns false prices).length = prices.length := by
    rw [hret]
    simp
  have hrolllen : ∀ b : Bool, (historical_volatility prices w b).length = prices.length := by
    intro b
    cases b
    · rw [hfalse]
      unfold rollingApplyO
      simp [hRlen]
    · rw [htrue]
      rw [List.length_map]
      unfold rollingApplyO
      simp [hRlen]
  have ht' : t < (compute_daily_returns false prices).length := by rw [hRlen]; exact ht
  have hgetbase := rollingApplyO_getElem w sampleStd (compute_daily_returns false prices) t ht'
  refine ⟨hrolllen true, hrolllen false, ?_, ?_⟩
  · intro htw
    rw [hfalse, hgetbase]
    rcases Nat.lt_or_ge t (w - 1) with hc | hc
    · rw [if_neg]
      intro hcon
      exact absurd hcon.1 (by omega)
    · have htw1 : t + 1 = w := by omega
      rw [if_neg]
      intro hcon
      have hall := hcon.2
      have hwin : windowSlice w t (compute_daily_returns false prices)
          = (List.range' 0 w).map g := by
        rw [hret, windowSlice_range_map g prices.length w t ht (by omega),
          show t + 1 - w = 0 by omega]
      rw [hwin, List.all_eq_true] at hall
      have h0 : (0 : ℕ) ∈ List.range' 0 w := by
        rw [List.mem_range'_1]
        omega
      have := hall (g 0) (List.mem_map_of_mem g h0)
      simp [hg] at this
  · intro hwt
    have hs1 : 1 ≤ t + 1 - w := by omega
    have hwin : windowSlice w t (compute_daily_returns false prices)
        = (List.range' (t + 1 - w) w).map g := by
      rw [hret, windowSlice_range_map g prices.length w t ht (by omega)]
    have hgsome : ∀ k ∈ List.range' (t + 1 - w) w, g k = some (returnAt prices k) := by
      intro k hk
      rw [List.mem_range'_1] at hk
      have : k ≠ 0 := by omega
      simp [hg, this]
    have hall : ((List.range' (t + 1 - w) w).map g).all Option.isSome = true := by
      rw [List.all_eq_true]
      intro x hx
      rw [List.mem_map] at hx
      obtain ⟨k, hk, rfl⟩ := hx
      rw [hgsome k hk]
      rfl
    have hfm : ((List.range' (t + 1 - w) w).map g).filterMap id
        = (List.range w).map (fun j => returnAt prices (t + 1 - w + j)) := by
      rw [filterMap_id_map_some _ g (returnAt prices) hgsome,
        List.range'_eq_map_range, List.map_map]
      rfl
    have hval : (historical_volatility prices w false)[t]?
        = some (some (sampleStd
            ((List.range w).map (fun j => returnAt prices (t + 1 - w + j))))) := by
      rw [hfalse, hgetbase, if_pos ⟨by omega, by rw [hwin]; exact hall⟩, hwin, hfm]
    refine ⟨hval, Real.sqrt_nonneg _, ?_⟩
    have hval' : (rollingApplyO w sampleStd (compute_daily_returns false prices))[t]?
        = some (some (sampleStd
            ((List.range w).map (fun j => returnAt prices (t + 1 - w + j))))) := by
      rw [← hfalse]
      exact hval
    rw [htrue, List.getElem?_map, hval']
    rfl

/-- C4 witness: prices [100, 110, 121, 133], window 2, position 2. -/
theorem historical_vol_window_witness :
    (historical_volatility [100, 110, 121, 133] 2 true).length
        = ([100, 110, 121, 133] : List ℝ).length
    ∧ (historical_volatility [100, 110, 121, 133] 2 false).length
        = ([100, 110, 121, 133] : List ℝ).length
    ∧ ((2 : ℕ) < 2 → (historical_volatility [100, 110, 121, 133] 2 false)[2]? = some none)
    ∧ ((2 : ℕ) ≤ 2 →
        (historical_volatility [100, 110, 121, 133] 2 false)[2]?
          = some (some (sampleStd
              ((List.range 2).map (fun j => returnAt [100, 110, 121, 133] (2 + 1 - 2 + j)))))
        ∧ 0 ≤ sampleStd ((List.range 2).map (fun j => returnAt [100, 110, 121, 133] (2 + 1 - 2 + j)))
        ∧ (historical_volatility [100, 110, 121, 133] 2 true)[2]?
          = some (some (sampleStd
              ((List.range 2).map (fun j => returnAt [100, 110, 121, 133] (2 + 1 - 2 + j)))
              * Real.sqrt 252))) :=
  historical_vol_window [100, 110, 121, 133] 2 2 (by norm_num)
    (by
      intro p hp
      simp only [List.mem_cons, List.not_mem_nil, or_false] at hp
      rcases hp with h | h | h | h <;> (rw [h]; norm_num))
    (by simp)

/-! ### C6 — sector aggregation -/

/-- C6 counterexample: on the empty matrix the unsupported-method check is
never reached — `compute_sector_volatility` returns an empty frame instead
of raising, so "any other method value raises a hard failure" fails for the
empty matrix. -/
theorem sector_method_empty_no_raise :
    compute_sector_volatility ⟨[], []⟩ [] "bogus" = .ok ⟨[], []⟩ := rfl

/-- C6 (amended to non-empty matrices for the raising clause):
`method="mean"` aggregates each sector's defined values on each date by
their arithmetic mean (sum divided by count); a ticker absent from the
sector map contributes to no sector's group; `method="weighted"` produces
exactly the same output as `method="mean"`; and on a non-empty matrix any
other method raises a hard failure naming the unsupported method. -/
theorem sector_aggregation_mean (m : VolMatrix) (sectorMap : List (String × String))
    (method t s : String) (v : Option ℝ) (cols : List String) (vals : List (Option ℝ))
    (i j : ℕ) (hne : m.isEmptyDF = false)
    (hi : i < m.rows.length) (hj : j < (sectorList sectorMap m.cols).length)
    (hm1 : method ≠ "mean") (hm2 : method ≠ "median") (hm3 : method ≠ "weighted")
    (ht : sectorMap.lookup t = none) :
    compute_sector_volatility m sectorMap "mean"
        = .ok ⟨sectorList sectorMap m.cols,
            m.rows.map (fun r => (r.1, (sectorList sectorMap m.cols).map
              (fun s' => aggCell "mean" (sectorValues sectorMap m.cols r.2 s'))))⟩
    ∧ (sectorValues sectorMap m.cols (m.rows[i]).2 ((sectorList sectorMap m.cols)[j]) ≠ [] →
        aggCell "mean"
            (sectorValues sectorMap m.cols (m.rows[i]).2 ((sectorList sectorMap m.cols)[j]))
          = some ((sectorValues sectorMap m.cols (m.rows[i]).2
                ((sectorList sectorMap m.cols)[j])).sum
              / ((sectorValues sectorMap m.cols (m.rows[i]).2
                ((sectorList sectorMap m.cols)[j])).length : ℝ)))
    ∧ sectorValues sectorMap (t :: cols) (v :: vals) s = sectorValues sectorMap cols vals s
    ∧ compute_sector_volatility m sectorMap "weighted"
        = compute_sector_volatility m sectorMap "mean"
    ∧ compute_sector_volatility m sectorMap method
        = .error ("Method not supported: " ++ method) := by
  refine ⟨?_, ?_, ?_, ?_, ?_⟩
  · unfold compute_sector_volatility
    rw [hne]
    simp
  · intro hnonempty
    simp [aggCell, listMean, hnonempty]
  · simp [sectorValues, ht]
  · unfold compute_sector_volatility
    rw [hne]
    have hwm : ∀ xs : List ℝ, aggCell "weighted" xs = aggCell "mean" xs := by
      intro xs
      simp [aggCell]
    simp [hwm]
  · unfold compute_sector_volatility
    rw [hne]
    have hnv : ¬(method = "mean" ∨ method = "median" ∨ method = "weighted") := by
      simp [hm1, hm2, hm3]
    simp [hnv]

/-- C6 witness: the spec example — two tickers of one sector with values
0.10 and 0.20 on one date; `"bogus"` as unsupported method; ticker `"CCC"`
absent from the map. -/
theorem sector_aggregation_mean_witness :
    compute_sector_volatility exM6 exMap6 "mean"
        = .ok ⟨sectorList exMap6 exM6.cols,
            exM6.rows.map (fun r => (r.1, (sectorList exMap6 exM6.cols).map
              (fun s' => aggCell "mean" (sectorValues exMap6 exM6.cols r.2 s'))))⟩
    ∧ (sectorValues exMap6 exM6.cols (exM6.rows[0]).2 ((sectorList exMap6 exM6.cols)[0]) ≠ [] →
        aggCell "mean"
            (sectorValues exMap6 exM6.cols (exM6.rows[0]).2 ((sectorList exMap6 exM6.cols)[0]))
          = some ((sectorValues exMap6 exM6.cols (exM6.rows[0]).2
                ((sectorList exMap6 exM6.cols)[0])).sum
              / ((sectorValues exMap6 exM6.cols (exM6.rows[0]).2
                ((sectorList exMap6 exM6.cols)[0])).length : ℝ)))
    ∧ sectorValues exMap6 ("CCC" :: ["AAA"]) (some 0.5 :: [some 0.1]) "Tech"
        = sectorValues exMap6 ["AAA"] [some 0.1] "Tech"
    ∧ compute_sector_volatility exM6 exMap6 "weighted"
        = compute_sector_volatility exM6 exMap6 "mean"
    ∧ compute_sector_volatility exM6 exMap6 "bogus"
        = .error ("Method not supported: " ++ "bogus") :=
  sector_aggregation_mean exM6 exMap6 "bogus" "CCC" "Tech" (some 0.5) ["AAA"] [some 0.1]
    0 0 (by rfl) (by decide) (by decide) (by decide) (by decide) (by decide) (by decide)

/-! ### C3 — clustering error results -/

/-- C3 counterexample: with scipy available, method `"hierarchical"` and a
matrix of exactly 2 fully-defined sectors, requesting 3 clusters returns a
result with no `"error"` entry — the `n_clusters` bound is not validated in
the hierarchical branch, contradicting "returns an error result whenever
the number of sectors after dropping is smaller than the requested number
of clusters". -/
theorem cluster_small_hierarchical_no_error :
    (cluster_sectors_by_volatility exM3 "hierarchical" 3 true true exHier exKme).error = none
    ∧ (definedSectorSeries exM3).length = 2
    ∧ (2 : ℕ) < 3 := by
  refine ⟨?_, ?_, by norm_num⟩
  · rfl
  · rfl

/-- C3 (amended): `cluster_sectors_by_volatility` returns a structured
error value (never raises) when the required optional dependency is
unavailable for the chosen method; when fewer than 2 sectors survive the
drop of undefined rows; and — for `"kmeans"` only — when fewer sectors
survive than the requested clusters.  For `"hierarchical"` the
`n_clusters` bound is not validated. -/
theorem cluster_unavailability_errors (m : VolMatrix) (method : String)
    (nClusters : ℕ) (scipyA sklearnA : Bool)
    (hier kme : List (List ℝ) → ℕ → List ℕ)
    (hne : m.isEmptyDF = false) :
    (method = "hierarchical" → scipyA = false →
      (cluster_sectors_by_volatility m method nClusters scipyA sklearnA
        hier kme).error.isSome = true)
    ∧ (method = "kmeans" → sklearnA = false →
      (cluster_sectors_by_volatility m method nClusters scipyA sklearnA
        hier kme).error.isSome = true)
    ∧ (¬(method = "hierarchical" ∧ scipyA = false) →
        ¬(method = "kmeans" ∧ sklearnA = false) →
        (definedSectorSeries m).length < 2 →
        (cluster_sectors_by_volatility m method nClusters scipyA sklearnA
          hier kme).error.isSome = true)
    ∧ (method = "kmeans" → sklearnA = true →
        (definedSectorSeries m).length < nClusters →
        (cluster_sectors_by_volatility m method nClusters scipyA sklearnA
          hier kme).error.isSome = true) := by
  unfold cluster_sectors_by_volatility
  rw [hne]
  simp only [Bool.false_eq_true, if_false]
  refine ⟨?_, ?_, ?_, ?_⟩
  · intro h1 h2
    subst h1
    subst h2
    simp
  · intro h1 h2
    subst h1
    subst h2
    simp
  · intro hn1 hn2 hlen
    rw [if_neg (by simpa [Bool.not_eq_true] using hn1),
      if_neg (by simpa [Bool.not_eq_true] using hn2),
      if_pos (Or.inr hlen)]
    rfl
  · intro h1 h2 hlen
    subst h1
    subst h2
    rw [if_neg (by simp), if_neg (by simp)]
    by_cases hlen2 : (definedSectorSeries m).length < 2
    · rw [if_pos (Or.inr hlen2)]
      rfl
    · have hnemp : definedSectorSeries m ≠ [] := by
        intro h
        rw [h] at hlen2
        simp at hlen2
      have hcond : ¬((definedSectorSeries m).isEmpty = true ∨
          (definedSectorSeries m).length < 2) := by
        simp [List.isEmpty_iff, hnemp]
        omega
      rw [if_neg hcond, if_neg (by simp), if_pos rfl, if_neg (by omega)]
      rfl

/-- C3 witness: a 2-sector fully-defined matrix, `"kmeans"` with
scikit-learn available and 5 requested clusters. -/
theorem cluster_unavailability_errors_witness :
    (("kmeans" : String) = "hierarchical" → (true : Bool) = false →
      (cluster_sectors_by_volatility exM3 "kmeans" 5 true true exHier exKme).error.isSome = true)
    ∧ (("kmeans" : String) = "kmeans" → (true : Bool) = false →
      (cluster_sectors_by_volatility exM3 "kmeans" 5 true true exHier exKme).error.isSome = true)
    ∧ (¬(("kmeans" : String) = "hierarchical" ∧ (true : Bool) = false) →
        ¬(("kmeans" : String) = "kmeans" ∧ (true : Bool) = false) →
        (definedSectorSeries exM3).length < 2 →
        (cluster_sectors_by_volatility exM3 "kmeans" 5 true true exHier exKme).error.isSome = true)
    ∧ (("kmeans" : String) = "kmeans" → (true : Bool) = true →
        (definedSectorSeries exM3).length < 5 →
        (cluster_sectors_by_volatility exM3 "kmeans" 5 true true exHier exKme).error.isSome = true) :=
  cluster_unavailability_errors exM3 "kmeans" 5 true true exHier exKme (by rfl)

/-- C5 witness: the spec's boundary example, thresholds (0.15, 0.30), on a
1×1 matrix; value 0.300001 classifies High, 0.15 Low, 0.30 Medium. -/
theorem regime_classification_witness :
    (detect_sector_volatility_regimes ⟨["Tech"], [("d1", [some 0.2])]⟩ 0.15 0.30).cols
        = (⟨["Tech"], [("d1", [some 0.2])]⟩ : VolMatrix).cols
    ∧ (detect_sector_volatility_regimes ⟨["Tech"], [("d1", [some 0.2])]⟩ 0.15 0.30).rows[0]?
        = (⟨["Tech"], [("d1", [some 0.2])]⟩ : VolMatrix).rows[0]?.map
            (fun r => (r.1, r.2.map (classifyCell 0.15 0.30)))
    ∧ classifyCell 0.15 0.30 none = none
    ∧ ((0.300001 : ℝ) ≤ 0.15 → classifyCell 0.15 0.30 (some 0.300001) = some .low)
    ∧ ((0.15 : ℝ) < 0.300001 → (0.300001 : ℝ) ≤ 0.30 →
        classifyCell 0.15 0.30 (some 0.300001) = some .medium)
    ∧ ((0.30 : ℝ) < 0.300001 → classifyCell 0.15 0.30 (some 0.300001) = some .high)
    ∧ classifyCell 0.15 0.30 (some 0.15) = some .low
    ∧ classifyCell 0.15 0.30 (some 0.30) = some .medium :=
  regime_classification ⟨["Tech"], [("d1", [some 0.2])]⟩ 0.15 0.30 0.300001 0
    (by norm_num) (by rfl)

/-! ### C7 — sector ranking -/

theorem addRanks_ranks (L : List (String × ℝ)) :
    (addRanks L).map (fun x => x.2.2) = List.range' 1 L.length := by
  unfold addRanks
  rw [List.map_map]
  rw [show ((fun x : String × ℝ × ℕ => x.2.2)
      ∘ (fun p : ℕ × (String × ℝ) => (p.2.1, p.2.2, p.1 + 1)))
    = ((fun n : ℕ => n + 1) ∘ Prod.fst) from rfl]
  rw [← List.map_map, List.enum_map_fst, List.range'_eq_map_range]
  exact List.map_congr_left (fun n _ => by omega)

/-- C7: with a date that is a row label, `rank_sectors_by_volatility`
returns that date's cross-section with undefined sectors dropped, sorted in
descending order of volatility (a permutation of the defined pairs) and
truncated to `top_n`; with no date it returns a table ranking the sectors
by time-mean volatility in descending order with explicit rank numbers
1, 2, 3, …, and a sector with no defined value in the whole matrix never
appears in the table. -/
theorem rank_sectors_modes (m : VolMatrix) (d : String) (vals : List (Option ℝ))
    (topN : Option ℕ) (k j : ℕ)
    (hne : m.isEmptyDF = false) (hlk : m.rows.lookup d = some vals)
    (hnd : m.cols.Nodup) (hj : j < m.cols.length) :
    rank_sectors_by_volatility m (some d) topN
        = .series (truncOpt topN (sortDesc (definedPairs m.cols vals)))
    ∧ (sortDesc (definedPairs m.cols vals)).Sorted descRel
    ∧ (sortDesc (definedPairs m.cols vals)).Perm (definedPairs m.cols vals)
    ∧ truncOpt (some k) (sortDesc (definedPairs m.cols vals))
        = (sortDesc (definedPairs m.cols vals)).take k
    ∧ rank_sectors_by_volatility m none topN
        = .table (addRanks (truncOpt topN (sortDesc (colMeans m))))
    ∧ (sortDesc (colMeans m)).Sorted descRel
    ∧ (sortDesc (colMeans m)).Perm (colMeans m)
    ∧ (addRanks (truncOpt topN (sortDesc (colMeans m)))).map (fun x => x.2.2)
        = List.range' 1 (truncOpt topN (sortDesc (colMeans m))).length
    ∧ (colValues m j = [] → ∀ p ∈ colMeans m, p.1 ≠ m.cols[j]) := by
  refine ⟨?_, List.sorted_insertionSort descRel _, List.perm_insertionSort descRel _,
    rfl, ?_, List.sorted_insertionSort descRel _, List.perm_insertionSort descRel _,
    addRanks_ranks _, ?_⟩
  · unfold rank_sectors_by_volatility
    rw [hne]
    simp [hlk]
  · unfold rank_sectors_by_volatility
    rw [hne]
    simp
  · intro hcol p hp
    unfold colMeans at hp
    rw [List.mem_filterMap] at hp
    obtain ⟨j', hj'mem, hbody⟩ := hp
    rw [List.mem_range] at hj'mem
    by_cases hcv : (colValues m j').isEmpty
    · rw [if_pos hcv] at hbody
      exact absurd hbody (by simp)
    · rw [if_neg hcv] at hbody
      have hp1 : p.1 = m.cols[j'] := by
        have hfst := congrArg Prod.fst (Option.some.inj hbody)
        rw [List.getD_eq_getElem m.cols "" hj'mem] at hfst
        exact hfst.symm
      intro hcontra
      have hjj : j' = j := by
        have hcc : m.cols[j'] = m.cols[j] := by rw [← hp1, hcontra]
        exact (List.Nodup.getElem_inj_iff hnd).mp hcc
      rw [hjj, hcol] at hcv
      simp at hcv

/-- C7 witness: the spec example {Tech: 0.30, Energy: 0.10, Health: 0.20}
on one date, `top_n = 2`. -/
theorem rank_sectors_modes_witness :
    rank_sectors_by_volatility exM7 (some "d1") (some 2)
        = .series (truncOpt (some 2) (sortDesc (definedPairs exM7.cols exVals7)))
    ∧ (sortDesc (definedPairs exM7.cols exVals7)).Sorted descRel
    ∧ (sortDesc (definedPairs exM7.cols exVals7)).Perm (definedPairs exM7.cols exVals7)
    ∧ truncOpt (some 2) (sortDesc (definedPairs exM7.cols exVals7))
        = (sortDesc (definedPairs exM7.cols exVals7)).take 2
    ∧ rank_sectors_by_volatility exM7 none (some 2)
        = .table (addRanks (truncOpt (some 2) (sortDesc (colMeans exM7))))
    ∧ (sortDesc (colMeans exM7)).Sorted descRel
    ∧ (sortDesc (colMeans exM7)).Perm (colMeans exM7)
    ∧ (addRanks (truncOpt (some 2) (sortDesc (colMeans exM7)))).map (fun x => x.2.2)
        = List.range' 1 (truncOpt (some 2) (sortDesc (colMeans exM7))).length
    ∧ (colValues exM7 0 = [] → ∀ p ∈ colMeans exM7, p.1 ≠ exM7.cols[0]) :=
  rank_sectors_modes exM7 "d1" exVals7 (some 2) 2 0 (by rfl) (by rfl) (by decide)
    (by decide)

/-- The spec's ranking example evaluated: the top-2 cross-section on the
date is [Tech 0.30, Health 0.20], in that order. -/
theorem rank_sectors_example_eval :
    rank_sectors_by_volatility exM7 (some "d1") (some 2)
      = .series [("Tech", 0.30), ("Health", 0.20)] := by
  have h1 : rank_sectors_by_volatility exM7 (some "d1") (some 2)
      = .series (truncOpt (some 2) (sortDesc (definedPairs exM7.cols exVals7))) := by
    unfold rank_sectors_by_volatility
    rw [show exM7.isEmptyDF = false from rfl]
    simp only [Bool.false_eq_true, if_false]
    rw [show exM7.rows.lookup "d1" = some exVals7 from rfl]
  rw [h1]
  have hdp : definedPairs exM7.cols exVals7
      = [("Tech", 0.30), ("Energy", 0.10), ("Health", 0.20)] := by
    unfold definedPairs exM7 exVals7
    simp
  rw [hdp]
  unfold sortDesc truncOpt
  rw [show List.insertionSort descRel
        [("Tech", (0.30 : ℝ)), ("Energy", 0.10), ("Health", 0.20)]
      = [("Tech", 0.30), ("Health", 0.20), ("Energy", 0.10)] by
    norm_num [List.insertionSort, List.orderedInsert, descRel]]
  rfl

/-! ### C10 — sector risk contributions sum to 100 percent -/

theorem filterMap_id_pairs (l : List (String × Option ℝ)) (g : String → ℝ → ℝ) :
    (l.map (fun p => p.2.map (fun v => g p.1 v))).filterMap id
      = (l.filterMap (fun p => p.2.map (fun v => (p.1, v)))).map (fun q => g q.1 q.2) := by
  induction l with
  | nil => rfl
  | cons p tl ih =>
    cases p with
    | mk s ov =>
      cases ov
      · simpa using ih
      · simpa using ih

theorem riskContribRow_filterMap (w0 : List (String × ℝ)) (cols : List String)
    (vals : List (Option ℝ)) :
    (riskContribRow w0 cols vals).filterMap id
      = (definedPairs cols vals).map (fun q =>
          if 0 < rowTotal w0 cols vals
          then q.2 * dateWeight w0 cols vals q.1 / rowTotal w0 cols vals * 100
          else 0) := by
  unfold riskContribRow definedPairs
  exact filterMap_id_pairs (cols.zip vals)
    (fun s v => if 0 < rowTotal w0 cols vals
      then v * dateWeight w0 cols vals s / rowTotal w0 cols vals * 100 else 0)

/-- C10: each output row of `compute_sector_risk_contribution` is the
percentage row of the corresponding sector-volatility row; whenever the
date's total weighted sector volatility is positive the defined entries of
the row sum to exactly 100, and whenever it is not positive every defined
entry is 0. -/
theorem risk_contribution_rows (m : VolMatrix) (sectorMap : List (String × String))
    (weights : Option (List (String × ℝ))) (w0 : List (String × ℝ))
    (cols : List String) (vals : List (Option ℝ)) (i : ℕ)
    (hne : m.isEmptyDF = false) (hi : i < (sectorVolMean m sectorMap).rows.length) :
    (compute_sector_risk_contribution m sectorMap weights).cols
        = (sectorVolMean m sectorMap).cols
    ∧ (compute_sector_risk_contribution m sectorMap weights).rows[i]?
        = some (((sectorVolMean m sectorMap).rows[i]).1,
            riskContribRow (riskWeights sectorMap weights)
              (sectorVolMean m sectorMap).cols ((sectorVolMean m sectorMap).rows[i]).2)
    ∧ (0 < rowTotal w0 cols vals →
        ((riskContribRow w0 cols vals).filterMap id).sum = 100)
    ∧ (rowTotal w0 cols vals ≤ 0 →
        ∀ x ∈ (riskContribRow w0 cols vals).filterMap id, x = 0) := by
  have hcomp : compute_sector_risk_contribution m sectorMap weights
      = ⟨(sectorVolMean m sectorMap).cols,
          (sectorVolMean m sectorMap).rows.map (fun r =>
            (r.1, riskContribRow (riskWeights sectorMap weights)
              (sectorVolMean m sectorMap).cols r.2))⟩ := by
    unfold compute_sector_risk_contribution
    rw [hne]
    simp
  refine ⟨by rw [hcomp], ?_, ?_, ?_⟩
  · rw [hcomp]
    simp only [List.getElem?_map, List.getElem?_eq_getElem hi]
    rfl
  · intro hT
    rw [riskContribRow_filterMap]
    have hmap : (definedPairs cols vals).map (fun q =>
          if 0 < rowTotal w0 cols vals
          then q.2 * dateWeight w0 cols vals q.1 / rowTotal w0 cols vals * 100
          else 0)
        = (definedPairs cols vals).map (fun q =>
            (q.2 * dateWeight w0 cols vals q.1) * (100 / rowTotal w0 cols vals)) := by
      apply List.map_congr_left
      intro q _
      rw [if_pos hT]
      ring
    rw [hmap, List.sum_map_mul_right]
    have hTot : ((definedPairs cols vals).map
        (fun q => q.2 * dateWeight w0 cols vals q.1)).sum = rowTotal w0 cols vals := rfl
    rw [hTot]
    rw [mul_comm, div_mul_cancel₀]
    exact ne_of_gt hT
  · intro hT x hx
    rw [riskContribRow_filterMap, List.mem_map] at hx
    obtain ⟨q, _, hq⟩ := hx
    rw [if_neg (not_lt.mpr hT)] at hq
    exact hq.symm

/-- C10 witness: the two-ticker one-sector fixture with default (equal)
weights; generic row data with one defined cell of weight 1. -/
theorem risk_contribution_rows_witness :
    (compute_sector_risk_contribution exM6 exMap6 none).cols
        = (sectorVolMean exM6 exMap6).cols
    ∧ (compute_sector_risk_contribution exM6 exMap6 none).rows[0]?
        = some (((sectorVolMean exM6 exMap6).rows[0]).1,
            riskContribRow (riskWeights exMap6 none)
              (sectorVolMean exM6 exMap6).cols ((sectorVolMean exM6 exMap6).rows[0]).2)
    ∧ (0 < rowTotal [("Tech", 1)] ["Tech"] [some 1] →
        ((riskContribRow [("Tech", 1)] ["Tech"] [some 1]).filterMap id).sum = 100)
    ∧ (rowTotal [("Tech", 1)] ["Tech"] [some 1] ≤ 0 →
        ∀ x ∈ (riskContribRow [("Tech", 1)] ["Tech"] [some 1]).filterMap id, x = 0) :=
  risk_contribution_rows exM6 exMap6 none [("Tech", 1)] ["Tech"] [some 1] 0
    (by rfl) (by decide)
